import Mathlib

/-!
Verification of the rust-snapshot timed capture pipeline.

Shallow embedding of the repository's core components:
- `Encoding.frame_from_slice` (src/src/encoding.rs)
- `ConfigMap.get_u32` / `ConfigMap.get_string` (src/src/resources/config_map.rs)
- `MockCamera` replay backend `next` (src/src/hardware/mock_camera.rs)
- `TimeProbe` scheduler (src/src/resources/time_probe.rs)
- `Capture` hardware backend init/shutdown/read loop
  (src/crates/rust-ffmpeg-capture/src/lib.rs)
- `App::run` main loop (src/src/app.rs)

Machine integers are modelled as `Nat`/`Int`; u32 arithmetic that can wrap is
taken modulo 2^32 (release-build wrapping semantics).  Rust's `f32 time_scale`
is modelled as an exact rational; panics (indexing a missing key, division by
zero, out-of-bounds indexing) are explicit result constructors.
-/

namespace Encoding

/-- u32 wrapping arithmetic (release-mode `as u32` casts and multiplications). -/
def wrap32 (n : Nat) : Nat := n % 4294967296

/-- Result of `Encoding::frame_from_slice`.  `ok w h` is a `Frame` (an
`ImageBuffer` borrowing the byte slice) with the given dimensions;
`panicDivByZero` models the Rust panic raised by `len / height` when
`height = 0` (checked integer division). -/
inductive FrameResult where
  | ok (width height : Nat)
  | errInvalidLength
  | errInvalidBufferData
  | panicDivByZero
deriving DecidableEq, Repr

/-- Shared tail of `frame_from_slice` (src/src/encoding.rs lines 33-39): the
final length check against the chosen `(dx, dy)` and the
`image::ImageBuffer::from_raw` call, whose length check is
`dx * dy * 3 ≤ len` in (non-wrapping) `usize` arithmetic. -/
def finish (len dx dy : Nat) : FrameResult :=
  if len ≠ wrap32 (dx * dy * 3) then FrameResult.errInvalidLength
  else if dx * dy * 3 ≤ len then FrameResult.ok dx dy
  else FrameResult.errInvalidBufferData

/-- Embeds `Encoding::frame_from_slice` (src/src/encoding.rs lines 21-40).
`len` is `bytes.len()`.  When the length does not equal `width*height*3`
(computed in u32), the code recomputes `real_width = (len as u32)/height/3`,
which panics when `height = 0`. -/
def frame_from_slice (len w h : Nat) : FrameResult :=
  if len ≠ wrap32 (w * h * 3) then
    if h = 0 then FrameResult.panicDivByZero
    else finish len (wrap32 len / h / 3) h
  else finish len w h

end Encoding

namespace ConfigMap

/-- `ConfigMap` backing store (`HashMap<String, String>`), modelled as an
association list with distinct keys assumed irrelevant: lookup finds the
first matching key. -/
def Map := List (String × String)

/-- `self.data.contains_key(key)`. -/
def contains_key (m : Map) (k : String) : Bool := m.any (fun p => p.1 == k)

/-- `self.data[key]` as a total lookup (`none` when the key is absent; the
Rust `Index` impl panics in that case, which callers model explicitly). -/
def index (m : Map) (k : String) : Option String :=
  (m.find? (fun p => p.1 == k)).map (fun p => p.2)

/-- `str::parse::<u32>`: optional leading `+`, one or more ASCII digits,
value below 2^32. -/
def parse_u32 (s : String) : Option Nat :=
  let ds := match s.data with
    | '+' :: rest => rest
    | other => other
  if ds ≠ [] ∧ ds.all Char.isDigit then
    let v := ds.foldl (fun a c => a * 10 + (c.toNat - 48)) 0
    if v < 4294967296 then some v else none
  else none

/-- Result of `ConfigMap::get_u32`: indexing `self.data[key]` panics when the
key is absent. -/
inductive U32Result where
  | panics
  | ret (v : Option Nat)
deriving DecidableEq, Repr

/-- Embeds `ConfigMap::get_u32` (src/src/resources/config_map.rs lines 52-57):
no presence check before `self.data[key]`. -/
def get_u32 (m : Map) (k : String) : U32Result :=
  match index m k with
  | none => U32Result.panics
  | some v => U32Result.ret (parse_u32 v)

/-- Embeds `ConfigMap::get_string` (src/src/resources/config_map.rs lines
45-50): explicit `contains_key` check, then indexing. -/
def get_string (m : Map) (k : String) : Option String :=
  if contains_key m k then index m k else none

end ConfigMap

namespace MockCamera

/-- Replay-backend state (src/src/hardware/mock_camera.rs): `offset` is the
`isize` cursor, `repeats` embeds the source field `repeat` (a Lean keyword),
`frames` is the number of entries in the sorted file list.  The actual image
decoding in `read_frame` is abstracted away: `next` is modelled down to the
index of the file it serves. -/
structure Camera where
  offset : Int
  repeats : Bool
  frames : Nat
deriving DecidableEq, Repr

/-- Result of one `MockCamera::next` call: `serve i st` reads the file at
index `i` and leaves state `st`; `exhausted st` is the
`DeviceNoLongerAvailable` error; `panicIndex` models the out-of-bounds panic
of `self.frames[0]` when wrapping an empty list. -/
inductive NextResult where
  | serve (i : Nat) (st : Camera)
  | exhausted (st : Camera)
  | panicIndex
deriving DecidableEq, Repr

/-- Embeds `MockCamera::next` (src/src/hardware/mock_camera.rs lines 65-78).
The increment `self.offset += 1` happens before any check; on exhaustion
without repeat the incremented offset is retained. -/
def next (st : Camera) : NextResult :=
  let off := st.offset + 1
  if (st.frames : Int) ≤ off then
    if st.repeats then
      if st.frames = 0 then NextResult.panicIndex
      else NextResult.serve 0 { st with offset := 0 }
    else NextResult.exhausted { st with offset := off }
  else NextResult.serve off.toNat { st with offset := off }

/-- Drive `k` successive `next` calls, stopping the trace at a panic. -/
def run (st : Camera) : Nat → List NextResult
  | 0 => []
  | k + 1 =>
    match next st with
    | NextResult.serve i st' => NextResult.serve i st' :: run st' k
    | NextResult.exhausted st' => NextResult.exhausted st' :: run st' k
    | NextResult.panicIndex => [NextResult.panicIndex]

end MockCamera

namespace TimeProbe

/-- `TimeProbeConfig` (src/src/resources/time_probe.rs lines 6-18).
`samples` is the i64 field (`-1` meaning run forever); `time_scale` is the
f32 field modelled as an exact rational. -/
structure Config where
  interval : Nat
  idle : Nat
  samples : Int
  time_scale : ℚ
deriving DecidableEq

/-- `TimeProbe` state (lines 20-26).  Monotonic `Instant`s (`moment`,
`last`) are milliseconds since an arbitrary fixed origin. -/
structure Probe where
  config : Config
  reference : Nat
  moment : Nat
  last : Nat
  sampled : Int
deriving DecidableEq

/-- `TimeSnapshot` (lines 28-38); the `utc` field is a calendar rendering of
`timestamp` and is omitted. -/
structure Snapshot where
  timestamp : Nat
  elapsed : Nat
deriving DecidableEq, Repr

/-- The scaling step `(n as f32 * time_scale).floor() as u128`: the Rust
float-to-unsigned `as` cast saturates negative values at 0, which `Int.toNat`
mirrors. -/
def scaleMs (ts : ℚ) (n : Nat) : Nat := (⌊(n : ℚ) * ts⌋).toNat

/-- Embeds `TimeProbe::new` (lines 41-52).  The two `Instant::now()` reads
(struct-literal order: `moment` then `last`) are `now1`, `now2`; the
`chrono::Local::now().timestamp()` seconds value is `localEpochSecs`.
Construction is total: it cannot fail for any `time_scale`. -/
def new (config : Config) (now1 now2 : Nat) (localEpochSecs : Nat) : Probe :=
  let ts := if config.time_scale ≤ 0 then 1 else config.time_scale
  { config := { config with time_scale := ts }
    moment := now1
    last := now2
    reference := localEpochSecs * 1000
    sampled := 0 }

/-- Embeds `TimeProbe::as_snapshot` (lines 67-74). -/
def as_snapshot (st : Probe) (msSinceSpawn : Nat) : Snapshot :=
  { timestamp := st.reference + msSinceSpawn, elapsed := msSinceSpawn }

/-- One `Iterator::next` outcome: `ended` is `None` (end of sequence);
`emitted` is `Some(snapshot)` with the updated probe state; `starved` means
the supplied clock trace ran out while the code would still be in its
sleep/poll loop. -/
inductive Step where
  | ended
  | emitted (s : Snapshot) (st : Probe)
  | starved (st : Probe)
deriving DecidableEq

/-- The poll loop inside `next` (lines 84-98).  `clock` is the sequence of
successive `Instant::now()` readings; `Instant` subtraction saturates at
zero, matching `Nat` subtraction. -/
def loop (st : Probe) : List Nat → Step
  | [] => Step.starved st
  | now :: rest =>
    let elapsed_real := now - st.last
    let elapsed_scale := scaleMs st.config.time_scale elapsed_real
    if st.config.interval < elapsed_scale then
      let since_spawn := scaleMs st.config.time_scale (now - st.moment)
      Step.emitted (as_snapshot st since_spawn)
        { st with sampled := st.sampled + 1, last := now }
    else loop st rest

/-- Embeds `impl Iterator for TimeProbe :: next` (lines 80-99): the
termination check `samples > 0 && sampled >= samples`, then the poll loop. -/
def next (st : Probe) (clock : List Nat) : Step :=
  if 0 < st.config.samples ∧ st.config.samples ≤ st.sampled then Step.ended
  else loop st clock

/-- Drive successive `next` calls, one clock trace per call, collecting the
emitted snapshots and the final probe state.  This is the shape of the
`for sample in probe` consumption in the tests and in `App::run`. -/
def collect : Probe → List (List Nat) → List Snapshot × Probe
  | st, [] => ([], st)
  | st, clock :: more =>
    match next st clock with
    | Step.ended => ([], st)
    | Step.starved st' => ([], st')
    | Step.emitted s st' =>
      let r := collect st' more
      (s :: r.1, r.2)

/-- A canonical family of clock traces: each call observes a single reading
`step` ms after the previous tick. -/
def canonClocks (last step : Nat) : Nat → List (List Nat)
  | 0 => []
  | k + 1 => [last + step] :: canonClocks (last + step) step k

/-- Embeds `TimeProbe::sync_network_time` (lines 54-65).  The sntpc network
lookup is an external collaborator; its outcome is the `ntp` argument
(`sec` on success).  `now1`, `now2` are the two `Instant::now()` reads.  On
error the `?` operator returns before any field is written, so the probe
state is returned unchanged. -/
def sync_network_time (st : Probe) (ntp : Except String Nat) (now1 now2 : Nat) :
    Except String Unit × Probe :=
  match ntp with
  | Except.error e => (Except.error e, st)
  | Except.ok sec =>
    (Except.ok (), { st with reference := sec * 1000, moment := now1, last := now2 })

end TimeProbe

namespace Capture

/-- Native resources acquired during the open sequence
(src/crates/rust-ffmpeg-capture/src/lib.rs): the allocated
`AVFormatContext`, the opened codec, the `av_malloc`'d packet and the
`av_frame_alloc`'d frame (the transcode frame is only allocated later,
during the first `read`). -/
inductive Res where
  | fmtContext
  | codecOpen
  | packet
  | frame
  | transcodeFrame
deriving DecidableEq, Repr

/-- Mirror of the `CaptureError` enum variants reachable from `init`. -/
inductive Error where
  | invalidDriver
  | notReady
  | invalidBuffer (required dataLen : Nat)
  | missingStream
  | missingCodec
  | nativeError (code : Int)
  | nullPointer
deriving DecidableEq, Repr

/-- Outcomes of the external libav/CString calls made by `init` and
`open_device`, supplied as an environment. `streams` lists the streams of
the opened device (`true` = video). -/
structure InitEnv where
  backendHasNul : Bool
  inputFormatFound : Bool
  pixelFormatHasNul : Bool
  deviceHasNul : Bool
  openInputResult : Int
  findStreamInfoResult : Int
  streams : List Bool
  codecFound : Bool
  codecOpenResult : Int
deriving DecidableEq, Repr

/-- The `Capture` struct's resource-holding fields, plus accounting lists of
every acquisition and every release performed so far. -/
structure State where
  hasContext : Bool
  hasInput : Bool
  hasPacket : Bool
  hasFrame : Bool
  hasTranscodeFrame : Bool
  hasCodec : Bool
  videoindex : Int
  acquired : List Res
  released : List Res
deriving DecidableEq, Repr

/-- `Capture::new` (lines 37-48): no resources held. -/
def new : State :=
  { hasContext := false, hasInput := false, hasPacket := false
    hasFrame := false, hasTranscodeFrame := false, hasCodec := false
    videoindex := 0, acquired := [], released := [] }

/-- The video-stream scan (lines 168-175): last index whose codec type is
video, `-1` if none. -/
def findVideoIndex (streams : List Bool) : Int :=
  (List.range streams.length).foldl
    (fun acc i => if streams.getD i false then (i : Int) else acc) (-1)

/-- Embeds `Capture::open_device` (lines 119-206).  Every `return Err(..)`
in the source returns with the state exactly as it stands: no release call
appears on any failure path. -/
def open_device (st : State) (env : InitEnv) : Except Error Unit × State :=
  if st.hasContext = false then (Except.error Error.nullPointer, st)
  else if env.pixelFormatHasNul then (Except.error Error.nullPointer, st)
  else if env.deviceHasNul then (Except.error Error.nullPointer, st)
  else if env.openInputResult ≠ 0 then
    (Except.error (Error.nativeError env.openInputResult), st)
  else if env.findStreamInfoResult < 0 then
    (Except.error (Error.nativeError env.findStreamInfoResult), st)
  else if findVideoIndex env.streams = -1 then
    (Except.error Error.missingStream, st)
  else
    let st := { st with videoindex := findVideoIndex env.streams }
    if env.codecFound = false then (Except.error Error.missingCodec, st)
    else if env.codecOpenResult < 0 then
      (Except.error (Error.nativeError env.codecOpenResult), st)
    else
      (Except.ok (),
        { st with hasCodec := true, hasPacket := true, hasFrame := true
                  acquired := st.acquired ++ [Res.codecOpen, Res.packet, Res.frame] })

/-- Embeds `Capture::init` (lines 50-77): `avformat_alloc_context` always
allocates and is stored in `self.context` first; then the backend lookup,
then `open_device`. -/
def init (st : State) (env : InitEnv) : Except Error Unit × State :=
  let st := { st with hasContext := true, acquired := st.acquired ++ [Res.fmtContext] }
  if env.backendHasNul then (Except.error Error.nullPointer, st)
  else if env.inputFormatFound = false then (Except.error Error.invalidDriver, st)
  else open_device { st with hasInput := true } env

/-- Embeds `Capture::shutdown` (lines 79-106): releases each still-held
resource, decoder first, context last. -/
def shutdown (st : State) : State :=
  let rel := (if st.hasCodec then [Res.codecOpen] else [])
    ++ (if st.hasFrame then [Res.frame] else [])
    ++ (if st.hasTranscodeFrame then [Res.transcodeFrame] else [])
    ++ (if st.hasPacket then [Res.packet] else [])
    ++ (if st.hasContext then [Res.fmtContext] else [])
  { st with hasCodec := false, hasFrame := false, hasTranscodeFrame := false
            hasPacket := false, hasContext := false
            released := st.released ++ rel }

/-- One iteration's worth of observations in the `capture_next_frame` read
loop (lines 208-267): `readFail` is `av_read_frame < 0`; `wrongStream` is a
packet for another stream; `decoded resp got w h copyRes` is an
`avcodec_decode_video2` call returning `resp`, setting `got_picture`
(`got`), with decoded frame geometry `w`x`h` and a subsequent
`av_image_copy_to_buffer` result `copyRes`. -/
inductive ReadEvent where
  | readFail
  | wrongStream
  | decoded (resp : Int) (got : Bool) (w h : Nat) (copyRes : Int)
deriving DecidableEq, Repr

/-- Result of the read loop.  Note the source's copy-failure branch reports
`as_error(response, ..)` — the decode return value — not the copy result;
`errCopy` carries that same value faithfully. -/
inductive CapResult where
  | ok
  | errDecode (code : Int)
  | errInvalidBuffer (required dataLen : Nat)
  | errCopy (code : Int)
  | starved
deriving DecidableEq, Repr

/-- Embeds the loop of `Capture::capture_next_frame` (lines 212-264) over a
trace of read events.  `len` is `data.len()`; `unrefs` counts
`av_packet_unref` calls (the packet release).  The required buffer size is
`av_image_get_buffer_size(RGB24, w, h, 1) = w*h*3`. -/
def capture_next_frame : List ReadEvent → Nat → Nat → CapResult × Nat
  | [], _, unrefs => (CapResult.starved, unrefs)
  | ReadEvent.readFail :: rest, len, unrefs => capture_next_frame rest len unrefs
  | ReadEvent.wrongStream :: rest, len, unrefs => capture_next_frame rest len unrefs
  | ReadEvent.decoded resp got w h copyRes :: rest, len, unrefs =>
    if resp < 0 then (CapResult.errDecode resp, unrefs)
    else if got = false then capture_next_frame rest len (unrefs + 1)
    else if len ≠ w * h * 3 then (CapResult.errInvalidBuffer (w * h * 3) len, unrefs)
    else if copyRes < 0 then (CapResult.errCopy resp, unrefs)
    else (CapResult.ok, unrefs + 1)

end Capture

namespace App

/-- `HardwareError` variants relevant to the run loop. -/
inductive HwError where
  | deviceNoLongerAvailable (msg : String)
  | deviceFailed (msg : String)
  | failedToEncodeFrame (msg : String)
deriving DecidableEq, Repr

/-- `AppError` variants relevant to the run loop. -/
inductive AppError where
  | deviceFailed (e : HwError)
  | outputError (msg : String)
deriving DecidableEq, Repr

/-- `From<HardwareError> for AppError` as applied by the `?` operator. -/
def hwToApp : Except HwError Unit → Except AppError Unit
  | Except.ok () => Except.ok ()
  | Except.error e => Except.error (AppError.deviceFailed e)

/-- Embeds the main loop of `App::run` (src/src/app.rs lines 88-117),
starting at `for sample in probe`.  `n` is the number of snapshots the probe
will still yield; `cam i`, `save i`, `lock i` are the results of
`camera.next()`, `image_logger.save(..)` and `run_lock.is_locked()` on the
i-th iteration; `sres` is the eventual `camera.shutdown()` result.  The
returned boolean records whether `camera.shutdown()` was called. -/
def runLoopAux (cam : Nat → Except HwError Unit) (save : Nat → Except AppError Unit)
    (lock : Nat → Bool) (sres : Except HwError Unit) : Nat → Nat → Except AppError Unit × Bool
  | 0, _ => (hwToApp sres, true)
  | k + 1, i =>
    match cam i with
    | Except.error e => (Except.error (AppError.deviceFailed e), false)
    | Except.ok () =>
      match save i with
      | Except.error e => (Except.error e, false)
      | Except.ok () =>
        if lock i then runLoopAux cam save lock sres k (i + 1)
        else (hwToApp sres, true)

/-- The run loop starting at iteration 0. -/
def runLoop (n : Nat) (cam : Nat → Except HwError Unit)
    (save : Nat → Except AppError Unit) (lock : Nat → Bool)
    (sres : Except HwError Unit) : Except AppError Unit × Bool :=
  runLoopAux cam save lock sres n 0

end App

section Lemmas

lemma ConfigMap.index_eq_none_of_not_contains (m : ConfigMap.Map) (k : String)
    (h : ConfigMap.contains_key m k = false) : ConfigMap.index m k = none := by
  unfold ConfigMap.index
  have hfind : m.find? (fun p => p.1 == k) = none := by
    rw [List.find?_eq_none]
    intro x hx hbeq
    have : m.any (fun p => p.1 == k) = true := List.any_eq_true.mpr ⟨x, hx, hbeq⟩
    rw [ConfigMap.contains_key] at h
    rw [h] at this
    exact Bool.noConfusion this
  rw [hfind]
  rfl

lemma Encoding.frame_from_slice_recompute (len w h : Nat) (hh : ¬ h = 0)
    (hne : len ≠ Encoding.wrap32 (w * h * 3)) :
    Encoding.frame_from_slice len w h
      = Encoding.finish len (Encoding.wrap32 len / h / 3) h := by
  unfold Encoding.frame_from_slice
  rw [if_pos hne, if_neg hh]

lemma Encoding.finish_err (len dx dy : Nat) (h : len ≠ Encoding.wrap32 (dx * dy * 3)) :
    Encoding.finish len dx dy = Encoding.FrameResult.errInvalidLength := by
  unfold Encoding.finish
  rw [if_pos h]

lemma Encoding.finish_ok (len dx dy : Nat) (h1 : len = Encoding.wrap32 (dx * dy * 3))
    (h2 : dx * dy * 3 ≤ len) :
    Encoding.finish len dx dy = Encoding.FrameResult.ok dx dy := by
  unfold Encoding.finish
  rw [if_neg (fun hne => hne h1), if_pos h2]

end Lemmas

/-- C9: `ConfigMap::get_u32` indexes the backing map with no presence check,
so a missing key panics, while `get_string` checks `contains_key` first and
returns `None` for the same key. -/
theorem get_u32_missing_key_panics (m : ConfigMap.Map) (k : String)
    (h : ConfigMap.contains_key m k = false) :
    ConfigMap.get_u32 m k = ConfigMap.U32Result.panics ∧
    ConfigMap.get_string m k = none := by
  have hidx := ConfigMap.index_eq_none_of_not_contains m k h
  constructor
  · simp [ConfigMap.get_u32, hidx]
  · simp [ConfigMap.get_string, h]

/-- C9 witness: the key "height" is absent from a map holding only "width". -/
theorem get_u32_missing_key_panics_witness :
    ConfigMap.contains_key [("width", "640")] "height" = false ∧
    ConfigMap.get_u32 [("width", "640")] "height" = ConfigMap.U32Result.panics ∧
    ConfigMap.get_string [("width", "640")] "height" = none :=
  ⟨rfl,
   (get_u32_missing_key_panics [("width", "640")] "height" rfl).1,
   (get_u32_missing_key_panics [("width", "640")] "height" rfl).2⟩

/-- C10: `frame_from_slice` with `height = 0` and a non-empty buffer reaches
the width-recomputation branch and panics on `len / height` (division by
zero) instead of returning `InvalidLength`. -/
theorem frame_from_slice_zero_height_panics (len w : Nat) (h : 0 < len) :
    Encoding.frame_from_slice len w 0 = Encoding.FrameResult.panicDivByZero := by
  have hne : len ≠ Encoding.wrap32 (w * 0 * 3) := by
    simp only [Encoding.wrap32, Nat.mul_zero, Nat.zero_mul, Nat.zero_mod]
    omega
  unfold Encoding.frame_from_slice
  rw [if_pos hne, if_pos rfl]

/-- C10 witness: a 5-byte buffer with declared size 7x0. -/
theorem frame_from_slice_zero_height_panics_witness :
    0 < 5 ∧ Encoding.frame_from_slice 5 7 0 = Encoding.FrameResult.panicDivByZero :=
  ⟨by decide, frame_from_slice_zero_height_panics 5 7 (by decide)⟩

/-- C1 counterexample: a 3-byte buffer declared 2x1 is NOT rejected even
though `3 ≠ 2*1*3`: the code recomputes the width as `3/1/3 = 1` and returns
a 1x1 frame. -/
theorem frame_from_slice_not_always_error :
    Encoding.frame_from_slice 3 2 1 = Encoding.FrameResult.ok 1 1 ∧ 3 ≠ 2 * 1 * 3 := by
  exact ⟨rfl, by decide⟩

/-- C1 amended: for `height > 0` (and lengths/products below 2^32, so the u32
arithmetic does not wrap): a buffer of exactly `width*height*3` bytes yields
a frame of exactly that width and height; a buffer whose length is NOT a
multiple of `3*height` is rejected with `InvalidLength`; any other length is
accepted with the recomputed width `len/(3*height)` instead of being
rejected. -/
theorem frame_from_slice_length_spec (len w h : Nat) (hh : 0 < h)
    (hlen : len < 4294967296) (hwh : w * h * 3 < 4294967296) :
    (len = w * h * 3 → Encoding.frame_from_slice len w h = Encoding.FrameResult.ok w h) ∧
    (¬ (3 * h ∣ len) →
      Encoding.frame_from_slice len w h = Encoding.FrameResult.errInvalidLength) ∧
    (3 * h ∣ len → len ≠ w * h * 3 →
      Encoding.frame_from_slice len w h = Encoding.FrameResult.ok (len / (3 * h)) h) := by
  have wrap_len : Encoding.wrap32 len = len := Nat.mod_eq_of_lt hlen
  have wrap_wh : Encoding.wrap32 (w * h * 3) = w * h * 3 := Nat.mod_eq_of_lt hwh
  have hdx : len / h / 3 = len / (3 * h) := by
    rw [Nat.div_div_eq_div_mul, Nat.mul_comm h 3]
  have hdule : len / (3 * h) * (3 * h) ≤ len := Nat.div_mul_le_self len (3 * h)
  have hq3 : len / (3 * h) * h * 3 = len / (3 * h) * (3 * h) := by ring
  have wrap_q : Encoding.wrap32 (len / (3 * h) * h * 3) = len / (3 * h) * h * 3 :=
    Nat.mod_eq_of_lt (by omega)
  refine ⟨?_, ?_, ?_⟩
  · intro he
    subst he
    simp [Encoding.frame_from_slice, Encoding.finish, wrap_wh]
  · intro hnd
    have hne : len ≠ w * h * 3 := by
      intro he
      exact hnd ⟨w, by rw [he]; ring⟩
    have hmod : len % (3 * h) ≠ 0 := by
      intro hz
      exact hnd (Nat.dvd_iff_mod_eq_zero.mpr hz)
    have hneq : len ≠ len / (3 * h) * h * 3 := by
      have hdm : len / (3 * h) * (3 * h) + len % (3 * h) = len := by
        rw [Nat.mul_comm]
        exact Nat.div_add_mod len (3 * h)
      rw [hq3]
      omega
    rw [Encoding.frame_from_slice_recompute len w h (by omega) (by rw [wrap_wh]; exact hne),
      wrap_len, hdx]
    exact Encoding.finish_err _ _ _ (by rw [wrap_q]; exact hneq)
  · intro hd hne
    obtain ⟨q, hq⟩ := hd
    have hqdiv : len / (3 * h) = q := by
      rw [hq]
      exact Nat.mul_div_cancel_left q (by omega)
    have hlq : len = len / (3 * h) * h * 3 := by
      rw [hq3, hqdiv, hq]
      ring
    rw [Encoding.frame_from_slice_recompute len w h (by omega) (by rw [wrap_wh]; exact hne),
      wrap_len, hdx]
    exact Encoding.finish_ok _ _ _ (by rw [wrap_q]; exact hlq) (by omega)

/-- C1 witness: exact length 6 = 2*1*3 gives a 2x1 frame; length 7 (not a
multiple of 3) is rejected; length 3 with declared width 2 is accepted with
recomputed width 1. -/
theorem frame_from_slice_length_spec_witness :
    Encoding.frame_from_slice 6 2 1 = Encoding.FrameResult.ok 2 1 ∧
    Encoding.frame_from_slice 7 2 1 = Encoding.FrameResult.errInvalidLength ∧
    Encoding.frame_from_slice 3 2 1 = Encoding.FrameResult.ok (3 / (3 * 1)) 1 :=
  ⟨(frame_from_slice_length_spec 6 2 1 (by decide) (by decide) (by decide)).1 (by decide),
   (frame_from_slice_length_spec 7 2 1 (by decide) (by decide) (by decide)).2.1 (by decide),
   (frame_from_slice_length_spec 3 2 1 (by decide) (by decide) (by decide)).2.2
     (by decide) (by decide)⟩

/-- C5 counterexample: a replay session initialized over an EMPTY frame
sequence with `repeat=true` does not wrap and serve frames — `next()`
panics indexing `self.frames[0]` on an empty vector. -/
theorem mock_next_empty_repeat_panics :
    MockCamera.next ⟨-1, true, 0⟩ = MockCamera.NextResult.panicIndex := by
  decide

/-- C5 amended: over a NONEMPTY initialized sequence: with `repeat=false`,
once the cursor has passed the last frame every subsequent `next()` call
returns the `DeviceNoLongerAvailable` error; with `repeat=true` every call
serves some in-range frame, and a call past the last frame serves index 0
with the cursor reset. -/
theorem mock_next_exhaustion_spec (st : MockCamera.Camera) (k : Nat) :
    (st.repeats = false → (st.frames : Int) ≤ st.offset + 1 →
      ∀ r ∈ MockCamera.run st k, ∃ st', r = MockCamera.NextResult.exhausted st') ∧
    (st.repeats = true → 0 < st.frames →
      ∀ r ∈ MockCamera.run st k,
        ∃ i st', r = MockCamera.NextResult.serve i st' ∧ i < st.frames) ∧
    (st.repeats = true → 0 < st.frames → (st.frames : Int) ≤ st.offset + 1 →
      MockCamera.next st = MockCamera.NextResult.serve 0 { st with offset := 0 }) := by
  refine ⟨?_, ?_, ?_⟩
  · intro hrep hex
    induction k generalizing st with
    | zero => intro r hr; simp [MockCamera.run] at hr
    | succ k ih =>
      intro r hr
      have hnext : MockCamera.next st
          = MockCamera.NextResult.exhausted { st with offset := st.offset + 1 } := by
        unfold MockCamera.next
        rw [if_pos hex, if_neg (by simp [hrep])]
      rw [MockCamera.run, hnext] at hr
      rcases List.mem_cons.mp hr with h | h
      · exact ⟨_, h⟩
      · exact ih { st with offset := st.offset + 1 } hrep (by simp; omega) r h
  · intro hrep hpos
    induction k generalizing st with
    | zero => intro r hr; simp [MockCamera.run] at hr
    | succ k ih =>
      intro r hr
      by_cases hex : (st.frames : Int) ≤ st.offset + 1
      · have hnext : MockCamera.next st
            = MockCamera.NextResult.serve 0 { st with offset := 0 } := by
          unfold MockCamera.next
          rw [if_pos hex, if_pos hrep, if_neg (by omega)]
        rw [MockCamera.run, hnext] at hr
        rcases List.mem_cons.mp hr with h | h
        · exact ⟨0, _, h, hpos⟩
        · obtain ⟨i, st', hr', hi⟩ := ih { st with offset := 0 } hrep hpos r h
          exact ⟨i, st', hr', hi⟩
      · have hnext : MockCamera.next st
            = MockCamera.NextResult.serve (st.offset + 1).toNat
                { st with offset := st.offset + 1 } := by
          unfold MockCamera.next
          rw [if_neg hex]
        rw [MockCamera.run, hnext] at hr
        rcases List.mem_cons.mp hr with h | h
        · exact ⟨_, _, h, by omega⟩
        · obtain ⟨i, st', hr', hi⟩ := ih { st with offset := st.offset + 1 } hrep hpos r h
          exact ⟨i, st', hr', hi⟩
  · intro hrep hpos hex
    unfold MockCamera.next
    rw [if_pos hex, if_pos hrep, if_neg (by omega)]

/-- C5 witness: a 2-frame sequence: exhausted non-repeating session keeps
erroring for 3 calls; a repeating session serves in-range frames for 5
calls; a repeating session at the end wraps to index 0. -/
theorem mock_next_exhaustion_spec_witness :
    (∀ r ∈ MockCamera.run ⟨2, false, 2⟩ 3,
       ∃ st', r = MockCamera.NextResult.exhausted st') ∧
    (∀ r ∈ MockCamera.run ⟨-1, true, 2⟩ 5,
       ∃ i st', r = MockCamera.NextResult.serve i st' ∧ i < 2) ∧
    MockCamera.next ⟨1, true, 2⟩ = MockCamera.NextResult.serve 0 ⟨0, true, 2⟩ :=
  ⟨(mock_next_exhaustion_spec ⟨2, false, 2⟩ 3).1 rfl (by decide),
   (mock_next_exhaustion_spec ⟨-1, true, 2⟩ 5).2.1 rfl (by decide),
   (mock_next_exhaustion_spec ⟨1, true, 2⟩ 0).2.2 rfl (by decide) (by decide)⟩

/-- C6: `TimeProbe::new` replaces `time_scale ≤ 0` by 1 and keeps a positive
`time_scale` unchanged; construction is total (the embedding returns a
`Probe`, never an error) and leaves the other config fields untouched. -/
theorem time_probe_new_normalizes_time_scale (cfg : TimeProbe.Config)
    (now1 now2 r : Nat) :
    (cfg.time_scale ≤ 0 → (TimeProbe.new cfg now1 now2 r).config.time_scale = 1) ∧
    (0 < cfg.time_scale →
      (TimeProbe.new cfg now1 now2 r).config.time_scale = cfg.time_scale) ∧
    (TimeProbe.new cfg now1 now2 r).config.interval = cfg.interval ∧
    (TimeProbe.new cfg now1 now2 r).config.idle = cfg.idle ∧
    (TimeProbe.new cfg now1 now2 r).config.samples = cfg.samples ∧
    (TimeProbe.new cfg now1 now2 r).sampled = 0 := by
  refine ⟨?_, ?_, rfl, rfl, rfl, rfl⟩
  · intro hle
    simp [TimeProbe.new, hle]
  · intro hpos
    simp [TimeProbe.new, not_le.mpr hpos]

/-- C6 witness: `time_scale = -2` is normalized to 1; `time_scale = 1/2`
is kept. -/
theorem time_probe_new_normalizes_time_scale_witness :
    (TimeProbe.new ⟨1000, 100, -1, -2⟩ 0 0 0).config.time_scale = 1 ∧
    (TimeProbe.new ⟨1000, 100, -1, 1/2⟩ 0 0 0).config.time_scale = 1/2 :=
  ⟨(time_probe_new_normalizes_time_scale ⟨1000, 100, -1, -2⟩ 0 0 0).1 (by norm_num),
   (time_probe_new_normalizes_time_scale ⟨1000, 100, -1, 1/2⟩ 0 0 0).2.1 (by norm_num)⟩

/-- C7: a successful `sync_network_time` sets `reference` to the returned
seconds times 1000 and resets both monotonic anchors (`moment`, `last`) to
the `Instant::now()` reads taken during the call, leaving the config and
the sample count unchanged; a failed lookup returns the error with the
probe state unmodified. -/
theorem sync_network_time_spec (st : TimeProbe.Probe) (sec now1 now2 : Nat)
    (e : String) :
    TimeProbe.sync_network_time st (Except.ok sec) now1 now2
        = (Except.ok (),
           { st with reference := sec * 1000, moment := now1, last := now2 }) ∧
    (TimeProbe.sync_network_time st (Except.ok sec) now1 now2).2.config = st.config ∧
    (TimeProbe.sync_network_time st (Except.ok sec) now1 now2).2.sampled = st.sampled ∧
    TimeProbe.sync_network_time st (Except.error e) now1 now2 = (Except.error e, st) :=
  ⟨rfl, rfl, rfl, rfl⟩

/-- C8: in the hardware read loop, a decode step with `got_picture == 0` is
never surfaced as an error — the packet is unref'd and the loop retries with
exactly the result of the remaining trace; a decode with a negative return
is a genuine failure; failed reads and other-stream packets are skipped; a
decoded picture with matching geometry and successful copy returns ok. -/
theorem capture_no_picture_retries (t : List Capture.ReadEvent) (len unrefs : Nat)
    (resp : Int) (w h : Nat) (copyRes : Int) :
    (0 ≤ resp →
      Capture.capture_next_frame
          (Capture.ReadEvent.decoded resp false w h copyRes :: t) len unrefs
        = Capture.capture_next_frame t len (unrefs + 1)) ∧
    (resp < 0 →
      Capture.capture_next_frame
          (Capture.ReadEvent.decoded resp false w h copyRes :: t) len unrefs
        = (Capture.CapResult.errDecode resp, unrefs)) ∧
    Capture.capture_next_frame (Capture.ReadEvent.readFail :: t) len unrefs
        = Capture.capture_next_frame t len unrefs ∧
    Capture.capture_next_frame (Capture.ReadEvent.wrongStream :: t) len unrefs
        = Capture.capture_next_frame t len unrefs ∧
    (0 ≤ resp → len = w * h * 3 → 0 ≤ copyRes →
      Capture.capture_next_frame
          (Capture.ReadEvent.decoded resp true w h copyRes :: t) len unrefs
        = (Capture.CapResult.ok, unrefs + 1)) := by
  refine ⟨?_, ?_, rfl, rfl, ?_⟩
  · intro hr
    simp [Capture.capture_next_frame, Int.not_lt.mpr hr]
  · intro hr
    simp [Capture.capture_next_frame, hr]
  · intro hr hlen hc
    simp [Capture.capture_next_frame, Int.not_lt.mpr hr, hlen, Int.not_lt.mpr hc]

/-- C8 witness: a no-picture decode retries into the rest of the trace; a
negative decode return errors; a good decode with a 2x2 buffer returns ok. -/
theorem capture_no_picture_retries_witness :
    Capture.capture_next_frame [Capture.ReadEvent.decoded 0 false 2 2 0] 12 0
        = Capture.capture_next_frame [] 12 1 ∧
    Capture.capture_next_frame [Capture.ReadEvent.decoded (-1) false 2 2 0] 12 0
        = (Capture.CapResult.errDecode (-1), 0) ∧
    Capture.capture_next_frame [Capture.ReadEvent.decoded 0 true 2 2 0] 12 0
        = (Capture.CapResult.ok, 1) :=
  ⟨(capture_no_picture_retries [] 12 0 0 2 2 0).1 (by decide),
   (capture_no_picture_retries [] 12 0 (-1) 2 2 0).2.1 (by decide),
   (capture_no_picture_retries [] 12 0 0 2 2 0).2.2.2.2 (by decide) (by decide) (by decide)⟩

/-- C2 counterexample: with one pending tick and a camera whose `next()`
fails, `App::run`'s loop propagates the error with `shutdown()` NOT called
(the returned flag is false). -/
theorem run_next_error_skips_shutdown :
    App.runLoop 1 (fun _ => Except.error (App.HwError.deviceNoLongerAvailable "gone"))
        (fun _ => Except.ok ()) (fun _ => true) (Except.ok ())
      = (Except.error (App.AppError.deviceFailed
            (App.HwError.deviceNoLongerAvailable "gone")), false) := rfl

/-- C2 amended: an error from `camera.next()` during the loop is propagated
immediately by the `?` operator WITHOUT calling `shutdown()`; `shutdown()`
runs only when the probe ends the loop normally or the lock-file check
breaks it. -/
theorem run_next_error_propagates_without_shutdown (k i : Nat)
    (cam : Nat → Except App.HwError Unit) (save : Nat → Except App.AppError Unit)
    (lock : Nat → Bool) (sres : Except App.HwError Unit) (e : App.HwError) :
    (cam i = Except.error e →
      App.runLoopAux cam save lock sres (k + 1) i
        = (Except.error (App.AppError.deviceFailed e), false)) ∧
    App.runLoopAux cam save lock sres 0 i = (App.hwToApp sres, true) ∧
    (cam i = Except.ok () → save i = Except.ok () → lock i = false →
      App.runLoopAux cam save lock sres (k + 1) i = (App.hwToApp sres, true)) := by
  refine ⟨?_, rfl, ?_⟩
  · intro hc
    simp [App.runLoopAux, hc]
  · intro hc hs hl
    simp [App.runLoopAux, hc, hs, hl]

/-- C2 amended witness: error propagation without shutdown at iteration 0;
normal exit and lock-break exit both call shutdown. -/
theorem run_next_error_propagates_without_shutdown_witness :
    App.runLoopAux (fun _ => Except.error (App.HwError.deviceNoLongerAvailable "x"))
        (fun _ => Except.ok ()) (fun _ => true) (Except.ok ()) 1 0
      = (Except.error (App.AppError.deviceFailed
            (App.HwError.deviceNoLongerAvailable "x")), false) ∧
    App.runLoopAux (fun _ => Except.ok ()) (fun _ => Except.ok ()) (fun _ => true)
        (Except.ok ()) 0 0 = (App.hwToApp (Except.ok ()), true) ∧
    App.runLoopAux (fun _ => Except.ok ()) (fun _ => Except.ok ()) (fun _ => false)
        (Except.ok ()) 1 0 = (App.hwToApp (Except.ok ()), true) :=
  ⟨(run_next_error_propagates_without_shutdown 0 0 _ _ _ _
      (App.HwError.deviceNoLongerAvailable "x")).1 rfl,
   (run_next_error_propagates_without_shutdown 0 0 (fun _ => Except.ok ())
      (fun _ => Except.ok ()) (fun _ => true) (Except.ok ())
      (App.HwError.deviceNoLongerAvailable "x")).2.1,
   (run_next_error_propagates_without_shutdown 0 0 (fun _ => Except.ok ())
      (fun _ => Except.ok ()) (fun _ => false) (Except.ok ())
      (App.HwError.deviceNoLongerAvailable "x")).2.2 rfl rfl rfl⟩

/-- C4 counterexample: when the backend name is unknown
(`av_find_input_format` returns null), `init` returns `InvalidDriver` while
the `AVFormatContext` allocated at the start of the sequence is still held
(`acquired` but `released = []`): nothing is released before the error
returns. -/
theorem init_invalid_driver_retains_context :
    (Capture.init Capture.new ⟨false, false, false, false, 0, 0, [], false, 0⟩).1
        = Except.error Capture.Error.invalidDriver ∧
    (Capture.init Capture.new ⟨false, false, false, false, 0, 0, [], false, 0⟩).2.acquired
        = [Capture.Res.fmtContext] ∧
    (Capture.init Capture.new ⟨false, false, false, false, 0, 0, [], false, 0⟩).2.released
        = [] ∧
    (Capture.init Capture.new ⟨false, false, false, false, 0, 0, [], false, 0⟩).2.hasContext
        = true :=
  ⟨rfl, rfl, rfl, rfl⟩

/-- C4 amended: on ANY failure path of the multi-step open sequence `init`
releases nothing before returning (its release log stays empty) and the
already-allocated format context remains held in the struct; release is
deferred to a subsequent `shutdown()`, which frees every resource the
sequence acquired. -/
theorem init_releases_nothing_spec (env : Capture.InitEnv) :
    (Capture.init Capture.new env).2.released = [] ∧
    (∀ e, (Capture.init Capture.new env).1 = Except.error e →
      (Capture.init Capture.new env).2.hasContext = true) ∧
    (∀ r ∈ (Capture.init Capture.new env).2.acquired,
      r ∈ (Capture.shutdown (Capture.init Capture.new env).2).released) := by
  unfold Capture.init Capture.open_device Capture.new Capture.shutdown
  dsimp only
  by_cases h1 : env.backendHasNul = true
  · rw [if_pos h1]; simp
  rw [if_neg h1]
  by_cases h2 : env.inputFormatFound = false
  · rw [if_pos h2]; simp
  rw [if_neg h2]
  by_cases h3 : env.pixelFormatHasNul = true
  · rw [if_pos h3]; simp
  rw [if_neg h3]
  by_cases h4 : env.deviceHasNul = true
  · rw [if_pos h4]; simp
  rw [if_neg h4]
  by_cases h5 : env.openInputResult ≠ 0
  · rw [if_pos h5]; simp
  rw [if_neg h5]
  by_cases h6 : env.findStreamInfoResult < 0
  · rw [if_pos h6]; simp
  rw [if_neg h6]
  by_cases h7 : Capture.findVideoIndex env.streams = -1
  · rw [if_pos h7]; simp
  rw [if_neg h7]
  by_cases h8 : env.codecFound = false
  · rw [if_pos h8]; simp
  rw [if_neg h8]
  by_cases h9 : env.codecOpenResult < 0
  · rw [if_pos h9]; simp
  rw [if_neg h9]
  simp

/-- C4 amended witness: a device with a single non-video stream fails with
`MissingStream`; nothing is released during `init`, the context stays held,
and the later `shutdown()` releases it. -/
theorem init_releases_nothing_spec_witness :
    (Capture.init Capture.new ⟨false, true, false, false, 0, 0, [false], true, 0⟩).2.released
        = [] ∧
    (Capture.init Capture.new ⟨false, true, false, false, 0, 0, [false], true, 0⟩).2.hasContext
        = true ∧
    Capture.Res.fmtContext ∈
      (Capture.shutdown
        (Capture.init Capture.new ⟨false, true, false, false, 0, 0, [false], true, 0⟩).2).released :=
  ⟨(init_releases_nothing_spec ⟨false, true, false, false, 0, 0, [false], true, 0⟩).1,
   (init_releases_nothing_spec ⟨false, true, false, false, 0, 0, [false], true, 0⟩).2.1
     Capture.Error.missingStream rfl,
   (init_releases_nothing_spec ⟨false, true, false, false, 0, 0, [false], true, 0⟩).2.2
     Capture.Res.fmtContext (by decide)⟩

lemma TimeProbe.scaleMs_zero (ts : ℚ) : TimeProbe.scaleMs ts 0 = 0 := by
  simp [TimeProbe.scaleMs]

lemma TimeProbe.scaleMs_one (n : Nat) : TimeProbe.scaleMs 1 n = n := by
  simp [TimeProbe.scaleMs]

lemma TimeProbe.scaleMs_superadd (ts : ℚ) (hts : 0 ≤ ts) (a b : Nat) :
    TimeProbe.scaleMs ts a + TimeProbe.scaleMs ts b ≤ TimeProbe.scaleMs ts (a + b) := by
  unfold TimeProbe.scaleMs
  have ha : (0 : ℚ) ≤ (a : ℚ) * ts := mul_nonneg (Nat.cast_nonneg a) hts
  have hb : (0 : ℚ) ≤ (b : ℚ) * ts := mul_nonneg (Nat.cast_nonneg b) hts
  have hfa : 0 ≤ ⌊(a : ℚ) * ts⌋ := Int.floor_nonneg.mpr ha
  have hfb : 0 ≤ ⌊(b : ℚ) * ts⌋ := Int.floor_nonneg.mpr hb
  have hsum : ⌊(a : ℚ) * ts⌋ + ⌊(b : ℚ) * ts⌋ ≤ ⌊((a + b : Nat) : ℚ) * ts⌋ := by
    apply Int.le_floor.mpr
    push_cast
    rw [add_mul]
    exact add_le_add (Int.floor_le _) (Int.floor_le _)
  omega

lemma TimeProbe.lt_of_fire (ts : ℚ) (interval la c : Nat)
    (h : interval < TimeProbe.scaleMs ts (c - la)) : la < c := by
  by_contra hc
  push_neg at hc
  rw [Nat.sub_eq_zero_of_le hc, TimeProbe.scaleMs_zero] at h
  omega

lemma TimeProbe.loop_ne_ended (st : TimeProbe.Probe) (clock : List Nat) :
    TimeProbe.loop st clock ≠ TimeProbe.Step.ended := by
  induction clock with
  | nil => simp [TimeProbe.loop]
  | cons c rest ih =>
    unfold TimeProbe.loop
    dsimp only
    split
    · simp
    · exact ih

lemma TimeProbe.next_emit (interval idle : Nat) (ts : ℚ) (S sa : Int)
    (refr m la c : Nat)
    (hS : ¬ (0 < S ∧ S ≤ sa))
    (hfire : interval < TimeProbe.scaleMs ts (c - la)) :
    TimeProbe.next ⟨⟨interval, idle, S, ts⟩, refr, m, la, sa⟩ [c]
      = TimeProbe.Step.emitted
          ⟨refr + TimeProbe.scaleMs ts (c - m), TimeProbe.scaleMs ts (c - m)⟩
          ⟨⟨interval, idle, S, ts⟩, refr, m, c, sa + 1⟩ := by
  unfold TimeProbe.next
  dsimp only
  rw [if_neg hS]
  unfold TimeProbe.loop
  dsimp only
  rw [if_pos hfire]
  rfl

lemma TimeProbe.loop_emit (st : TimeProbe.Probe) (clock : List Nat)
    (s : TimeProbe.Snapshot) (st' : TimeProbe.Probe)
    (h : TimeProbe.loop st clock = TimeProbe.Step.emitted s st') :
    ∃ c, st.config.interval < TimeProbe.scaleMs st.config.time_scale (c - st.last) ∧
      s = TimeProbe.as_snapshot st
            (TimeProbe.scaleMs st.config.time_scale (c - st.moment)) ∧
      st' = { st with sampled := st.sampled + 1, last := c } := by
  induction clock with
  | nil => simp [TimeProbe.loop] at h
  | cons c rest ih =>
    unfold TimeProbe.loop at h
    dsimp only at h
    by_cases hc : st.config.interval < TimeProbe.scaleMs st.config.time_scale (c - st.last)
    · rw [if_pos hc] at h
      injection h with h1 h2
      exact ⟨c, hc, h1.symm, h2.symm⟩
    · rw [if_neg hc] at h
      exact ih h

lemma TimeProbe.next_emit_loop {st : TimeProbe.Probe} {clock : List Nat}
    {s : TimeProbe.Snapshot} {st' : TimeProbe.Probe}
    (h : TimeProbe.next st clock = TimeProbe.Step.emitted s st') :
    TimeProbe.loop st clock = TimeProbe.Step.emitted s st' := by
  unfold TimeProbe.next at h
  by_cases hT : 0 < st.config.samples ∧ st.config.samples ≤ st.sampled
  · rw [if_pos hT] at h
    exact absurd h (by simp)
  · rwa [if_neg hT] at h

lemma TimeProbe.emit_elapsed_mono (st st₁ st₂ : TimeProbe.Probe)
    (c₁ c₂ : List Nat) (s₁ s₂ : TimeProbe.Snapshot)
    (hts : 0 ≤ st.config.time_scale) (hml : st.moment ≤ st.last)
    (h1 : TimeProbe.next st c₁ = TimeProbe.Step.emitted s₁ st₁)
    (h2 : TimeProbe.next st₁ c₂ = TimeProbe.Step.emitted s₂ st₂) :
    s₁.elapsed < s₂.elapsed := by
  obtain ⟨a, hfa, hsa, hsta⟩ :=
    TimeProbe.loop_emit st c₁ s₁ st₁ (TimeProbe.next_emit_loop h1)
  subst hsta
  obtain ⟨b, hfb, hsb, hstb⟩ :=
    TimeProbe.loop_emit _ c₂ s₂ st₂ (TimeProbe.next_emit_loop h2)
  dsimp only at hfb hsb
  subst hsa
  subst hsb
  dsimp only [TimeProbe.as_snapshot]
  have hla : st.last < a := TimeProbe.lt_of_fire _ _ _ _ hfa
  have hab : a < b := TimeProbe.lt_of_fire _ _ _ _ hfb
  have harith : (a - st.moment) + (b - a) = b - st.moment := by omega
  have hadd := TimeProbe.scaleMs_superadd st.config.time_scale hts (a - st.moment) (b - a)
  rw [harith] at hadd
  omega

lemma TimeProbe.collect_canon (interval idle : Nat) (ts : ℚ) (step refr m : Nat)
    (hfire : interval < TimeProbe.scaleMs ts step) :
    ∀ (k : Nat) (sa : Int) (la : Nat), m ≤ la →
      TimeProbe.collect ⟨⟨interval, idle, sa + k, ts⟩, refr, m, la, sa⟩
          (TimeProbe.canonClocks la step k)
        = ((List.range k).map (fun i =>
             (⟨refr + TimeProbe.scaleMs ts (la + (i + 1) * step - m),
               TimeProbe.scaleMs ts (la + (i + 1) * step - m)⟩ : TimeProbe.Snapshot)),
           ⟨⟨interval, idle, sa + k, ts⟩, refr, m, la + k * step, sa + k⟩) := by
  intro k
  induction k with
  | zero =>
    intro sa la hla
    simp [TimeProbe.canonClocks, TimeProbe.collect]
  | succ k ih =>
    intro sa la hla
    have hS : ¬ (0 < sa + ((k + 1 : Nat) : Int) ∧ sa + ((k + 1 : Nat) : Int) ≤ sa) := by
      push_cast
      omega
    have hfire' : interval < TimeProbe.scaleMs ts (la + step - la) := by
      rw [show la + step - la = step from by omega]
      exact hfire
    rw [TimeProbe.canonClocks, TimeProbe.collect,
      TimeProbe.next_emit interval idle ts (sa + ((k + 1 : Nat) : Int)) sa refr m la
        (la + step) hS hfire']
    dsimp only
    have hsz : sa + ((k + 1 : Nat) : Int) = (sa + 1) + (k : Int) := by
      push_cast
      ring
    rw [hsz, ih (sa + 1) (la + step) (by omega)]
    rw [List.range_succ_eq_map, List.map_cons, List.map_map]
    refine congrArg₂ Prod.mk (congrArg₂ List.cons ?_ ?_) ?_
    · have : la + step - m = la + (0 + 1) * step - m := by omega
      rw [this]
    · apply List.map_congr_left
      intro i _
      have : la + step + (i + 1) * step - m = la + (i + 1 + 1) * step - m := by ring_nf
      rw [Function.comp_apply]
      rw [this]
    · have h1 : (sa + 1) + (k : Int) = sa + ((k + 1 : Nat) : Int) := by
        push_cast
        ring
      have h2 : la + step + k * step = la + (k + 1) * step := by ring
      rw [h1, h2]

/-- C3 counterexample: with `max_samples = 0` (a valid `N ≥ 0`), the
termination check `samples > 0 && sampled >= samples` never fires, so the
first `next()` call emits a snapshot instead of ending the sequence:
`N = 0` behaves like the unbounded sentinel, not like "exactly 0
snapshots". -/
theorem probe_zero_samples_emits :
    TimeProbe.next (TimeProbe.new ⟨1000, 100, 0, 1⟩ 0 0 0) [1001]
      = TimeProbe.Step.emitted ⟨1001, 1001⟩ ⟨⟨1000, 100, 0, 1⟩, 0, 0, 1001, 1⟩ ∧
    TimeProbe.next (TimeProbe.new ⟨1000, 100, 0, 1⟩ 0 0 0) [1001]
      ≠ TimeProbe.Step.ended := by
  have hnew : TimeProbe.new ⟨1000, 100, 0, 1⟩ 0 0 0
      = ⟨⟨1000, 100, 0, 1⟩, 0, 0, 0, 0⟩ := by
    norm_num [TimeProbe.new]
  have hemit := TimeProbe.next_emit 1000 100 1 0 0 0 0 0 1001
    (by simp) (by rw [Nat.sub_zero, TimeProbe.scaleMs_one]; omega)
  constructor
  · rw [hnew, hemit]
    simp [TimeProbe.scaleMs_one]
  · rw [hnew, hemit]
    simp

/-- C3 amended: for `max_samples = N ≥ 1` (and a positive time scale), a run
over clock traces that advance past the interval yields exactly `N`
snapshots with strictly increasing `elapsed`, after which `next` returns
end-of-sequence for every clock; `elapsed` is strictly increasing across ANY
two successive emissions (not just canonical clocks); and whenever
`max_samples ≤ 0` — which includes the sentinel `-1` AND `N = 0` —
`next` never returns end-of-sequence on its own. -/
theorem probe_yields_exactly_n (cfg : TimeProbe.Config) (now ref step : Nat)
    (N : Nat) (hN : 0 < N) (hs : cfg.samples = (N : Int))
    (hts : 0 < cfg.time_scale)
    (hfire : cfg.interval < TimeProbe.scaleMs cfg.time_scale step) :
    ((TimeProbe.collect (TimeProbe.new cfg now now ref)
        (TimeProbe.canonClocks now step N)).1.length = N) ∧
    List.Pairwise (· < ·)
      ((TimeProbe.collect (TimeProbe.new cfg now now ref)
          (TimeProbe.canonClocks now step N)).1.map TimeProbe.Snapshot.elapsed) ∧
    (∀ clock, TimeProbe.next
        (TimeProbe.collect (TimeProbe.new cfg now now ref)
          (TimeProbe.canonClocks now step N)).2 clock = TimeProbe.Step.ended) ∧
    (∀ (st st₁ st₂ : TimeProbe.Probe) (c₁ c₂ : List Nat)
        (s₁ s₂ : TimeProbe.Snapshot),
      0 ≤ st.config.time_scale → st.moment ≤ st.last →
      TimeProbe.next st c₁ = TimeProbe.Step.emitted s₁ st₁ →
      TimeProbe.next st₁ c₂ = TimeProbe.Step.emitted s₂ st₂ →
      s₁.elapsed < s₂.elapsed) ∧
    (∀ (st : TimeProbe.Probe) (clock : List Nat), st.config.samples ≤ 0 →
      TimeProbe.next st clock ≠ TimeProbe.Step.ended) := by
  obtain ⟨interval, idle, samples, tscale⟩ := cfg
  dsimp only at hs hts hfire
  subst hs
  have hnew : TimeProbe.new ⟨interval, idle, (N : Int), tscale⟩ now now ref
      = ⟨⟨interval, idle, (N : Int), tscale⟩, ref * 1000, now, now, 0⟩ := by
    simp [TimeProbe.new, not_le.mpr hts]
  have hzero : ((N : Int)) = 0 + (N : Int) := (zero_add _).symm
  have hcanon := TimeProbe.collect_canon interval idle tscale step (ref * 1000) now
    hfire N 0 now (le_refl now)
  rw [hnew, hzero, hcanon]
  dsimp only
  refine ⟨?_, ?_, ?_, ?_, ?_⟩
  · simp
  · rw [List.map_map]
    have hmc : List.map (TimeProbe.Snapshot.elapsed ∘ fun i =>
          (⟨ref * 1000 + TimeProbe.scaleMs tscale (now + (i + 1) * step - now),
            TimeProbe.scaleMs tscale (now + (i + 1) * step - now)⟩ : TimeProbe.Snapshot))
          (List.range N)
        = List.map (fun i => TimeProbe.scaleMs tscale ((i + 1) * step))
            (List.range N) := by
      apply List.map_congr_left
      intro i _
      simp only [Function.comp_apply]
      congr 1
      omega
    rw [hmc]
    have hmono : StrictMono (fun i => TimeProbe.scaleMs tscale ((i + 1) * step)) := by
      apply strictMono_nat_of_lt_succ
      intro n
      have harith : (n + 1) * step + step = (n + 1 + 1) * step := by ring
      have hadd := TimeProbe.scaleMs_superadd tscale (le_of_lt hts) ((n + 1) * step) step
      rw [harith] at hadd
      have hpos : 0 < TimeProbe.scaleMs tscale step := by omega
      omega
    exact List.Pairwise.map _ (fun a b hab => hmono hab) (List.pairwise_lt_range N)
  · intro clock
    have hterm : 0 < (0 + (N : Int)) ∧ (0 + (N : Int)) ≤ (0 + (N : Int)) := by
      constructor
      · omega
      · exact le_refl _
    unfold TimeProbe.next
    dsimp only
    rw [if_pos hterm]
  · intro st st₁ st₂ c₁ c₂ s₁ s₂ h0 hml h1 h2
    exact TimeProbe.emit_elapsed_mono st st₁ st₂ c₁ c₂ s₁ s₂ h0 hml h1 h2
  · intro st clock hle
    have hng : ¬ (0 < st.config.samples ∧ st.config.samples ≤ st.sampled) := by
      rintro ⟨hpos, _⟩
      omega
    unfold TimeProbe.next
    rw [if_neg hng]
    exact TimeProbe.loop_ne_ended st clock

/-- C3 witness: config interval=1000, samples=2, time_scale=1, step=1001:
exactly 2 snapshots, strictly increasing elapsed, then ended; two concrete
successive emissions have increasing elapsed; samples=0 never ends. -/
theorem probe_yields_exactly_n_witness :
    ((TimeProbe.collect (TimeProbe.new ⟨1000, 100, 2, 1⟩ 0 0 0)
        (TimeProbe.canonClocks 0 1001 2)).1.length = 2) ∧
    List.Pairwise (· < ·)
      ((TimeProbe.collect (TimeProbe.new ⟨1000, 100, 2, 1⟩ 0 0 0)
          (TimeProbe.canonClocks 0 1001 2)).1.map TimeProbe.Snapshot.elapsed) ∧
    TimeProbe.next (TimeProbe.collect (TimeProbe.new ⟨1000, 100, 2, 1⟩ 0 0 0)
        (TimeProbe.canonClocks 0 1001 2)).2 [] = TimeProbe.Step.ended ∧
    ((⟨0 + TimeProbe.scaleMs 1 (6 - 0), TimeProbe.scaleMs 1 (6 - 0)⟩ :
        TimeProbe.Snapshot).elapsed
      < (⟨0 + TimeProbe.scaleMs 1 (12 - 0), TimeProbe.scaleMs 1 (12 - 0)⟩ :
        TimeProbe.Snapshot).elapsed) ∧
    TimeProbe.next ⟨⟨1000, 100, 0, 1⟩, 0, 0, 0, 0⟩ [50] ≠ TimeProbe.Step.ended := by
  have T := probe_yields_exactly_n ⟨1000, 100, 2, 1⟩ 0 0 1001 2
    (by omega)
    (by norm_num)
    (by norm_num)
    (by show (1000 : Nat) < TimeProbe.scaleMs 1 1001; rw [TimeProbe.scaleMs_one]; omega)
  have h1 := TimeProbe.next_emit 5 5 1 (-1) 0 0 0 0 6
    (by omega)
    (by rw [Nat.sub_zero, TimeProbe.scaleMs_one]; omega)
  have h2 := TimeProbe.next_emit 5 5 1 (-1) 1 0 0 6 12
    (by omega)
    (by rw [show 12 - 6 = 6 from rfl, TimeProbe.scaleMs_one]; omega)
  refine ⟨T.1, T.2.1, T.2.2.1 [], ?_,
    T.2.2.2.2 ⟨⟨1000, 100, 0, 1⟩, 0, 0, 0, 0⟩ [50] (by norm_num)⟩
  exact T.2.2.2.1 ⟨⟨5, 5, -1, 1⟩, 0, 0, 0, 0⟩ _ _ [6] [12] _ _
    (by norm_num) (le_refl 0) h1 h2
